import Mathlib

/-!
Shallow embedding of the drum machine application core
(src/apps/drum_machine.py) and verification of the specification claims.

Python integers are modelled as Int (so that the Python modulo on a
positive modulus, which always yields a non-negative result, coincides
with Int.emod), Python floats carrying note velocities as Rat, and the
observable side effects of each handler (voice presses and releases,
MIDI messages sent on the two transports) as an explicit list of
actions in the order the source performs them.
-/

/-- MIDI messages as parsed by the adafruit_midi layer: note on and note
off with a note number, a velocity and an optional channel, an
unrecognized raw byte event (MIDIUnknownEvent, which has no channel),
and any other recognized message kind. -/
inductive MIDIMessage where
  | NoteOn (note : Int) (velocity : Int) (channel : Option Int)
  | NoteOff (note : Int) (velocity : Int) (channel : Option Int)
  | UnknownEvent (status : Int)
  | OtherMessage (status : Int) (channel : Option Int)
deriving DecidableEq, Repr

/-- Channel attribute of a message; the unrecognized raw event has none. -/
def MIDIMessage.channel : MIDIMessage → Option Int
  | .NoteOn _ _ c => c
  | .NoteOff _ _ c => c
  | .UnknownEvent _ => none
  | .OtherMessage _ c => c

/-- Test for the MIDIUnknownEvent case, mirroring isinstance(msg, MIDIUnknownEvent). -/
def MIDIMessage.isUnknownEvent : MIDIMessage → Bool
  | .UnknownEvent _ => true
  | _ => false

/-- Global settings module fields read by the application core. -/
structure Settings where
  midi_thru : Bool
  midi_channel : Option Int
  keyboard_touch : Bool
deriving DecidableEq, Repr

/-- Observable side effects of the handlers, in source order: a voice
press with a velocity, a voice release, and a message sent on the UART
or USB MIDI transport. -/
inductive Act where
  | press (voice : Nat) (velocity : ℚ)
  | release (voice : Nat)
  | send_uart (msg : MIDIMessage)
  | send_usb (msg : MIDIMessage)
deriving DecidableEq, Repr

/-- Class names of the voices tuple, in construction order. -/
def voice_names : List String :=
  ["Kick", "Snare", "ClosedHat", "OpenHat", "FloorTom", "MidTom", "HighTom", "Ride"]

/-- Number of voices, len(voices) = 8. -/
def track_count : Nat := voice_names.length

/-- Index computation (notenum - 1) % len(voices) shared by all note
handlers; Python modulo on a positive modulus matches Int.emod. -/
def resolve_voice (notenum : Int) : Nat :=
  ((notenum - 1) % (track_count : Int)).toNat

/-- Python int() applied to a rational: truncation toward zero. -/
def pyInt (q : ℚ) : Int := Int.tdiv q.num (q.den : Int)

/-- Predicate selecting the send actions among the observable effects. -/
def is_send : Act → Bool
  | .send_uart _ => true
  | .send_usb _ => true
  | _ => false

/-- Voice indices pressed by a list of actions, with their velocities,
in order. -/
def pressed_voices (acts : List Act) : List (Nat × ℚ) :=
  acts.filterMap fun a =>
    match a with
    | .press t v => some (t, v)
    | _ => none

/-- Voice indices released by a list of actions, in order. -/
def released_voices (acts : List Act) : List Nat :=
  acts.filterMap fun a =>
    match a with
    | .release t => some t
    | _ => none

/-- Messages sent on the UART transport, in order. -/
def sent_uart (acts : List Act) : List MIDIMessage :=
  acts.filterMap fun a =>
    match a with
    | .send_uart m => some m
    | _ => none

/-- Messages sent on the USB transport, in order. -/
def sent_usb (acts : List Act) : List MIDIMessage :=
  acts.filterMap fun a =>
    match a with
    | .send_usb m => some m
    | _ => none

/-- Messages sent on either transport, in order. -/
def sent_messages (acts : List Act) : List MIDIMessage :=
  acts.filterMap fun a =>
    match a with
    | .send_uart m => some m
    | .send_usb m => some m
    | _ => none

/-- Handler sequencer_press bound to sequencer.on_press: press the voice
at (notenum - 1) % len(voices) with the given velocity, then send
NoteOn(notenum, velocity=int(velocity * 127), channel=settings.midi_channel)
on UART and then on USB. -/
def sequencer_press (s : Settings) (notenum : Int) (velocity : ℚ) : List Act :=
  let msg := MIDIMessage.NoteOn notenum (pyInt (velocity * 127)) s.midi_channel
  [Act.press (resolve_voice notenum) velocity,
   Act.send_uart msg,
   Act.send_usb msg]

/-- Handler sequencer_release bound to sequencer.on_release: compute
voice = (notenum - 1) % len(voices); when voice == 3 first release
voice + 1, then release voice; finally send NoteOff(notenum), whose
velocity and channel keep the constructor defaults (0 and None), on
UART and then on USB. -/
def sequencer_release (notenum : Int) : List Act :=
  let voice := resolve_voice notenum
  let msg := MIDIMessage.NoteOff notenum 0 none
  (if voice = 3 then [Act.release (voice + 1)] else [])
    ++ [Act.release voice, Act.send_uart msg, Act.send_usb msg]

/-- Channel filter test of midi_process_message: the message is dropped
when settings.midi_channel is not None and msg.channel differs from it. -/
def channel_filtered (s : Settings) (msg : MIDIMessage) : Bool :=
  match s.midi_channel with
  | none => false
  | some c => if msg.channel = some c then false else true

/-- Thru block of midi_process_message: when settings.midi_thru is set
and the message is not an unrecognized raw event, echo it verbatim to
USB and then to UART. -/
def midi_thru_echo (s : Settings) (msg : MIDIMessage) : List Act :=
  if s.midi_thru && !msg.isUnknownEvent then
    [Act.send_usb msg, Act.send_uart msg]
  else []

/-- Dispatch block of midi_process_message after the thru echo: return
nothing when the channel filter drops the message; otherwise a NoteOn
with velocity greater than zero presses the resolved voice with the raw
message velocity, a NoteOn with velocity not greater than zero releases
it, and a NoteOff releases it; other messages do nothing. -/
def midi_route (s : Settings) (msg : MIDIMessage) : List Act :=
  if channel_filtered s msg then []
  else
    match msg with
    | .NoteOn note vel _ =>
        if 0 < vel then [Act.press (resolve_voice note) (vel : ℚ)]
        else [Act.release (resolve_voice note)]
    | .NoteOff note _ _ => [Act.release (resolve_voice note)]
    | _ => []

/-- Handler midi_process_message: the optional thru echo followed by the
channel filter and note dispatch. -/
def midi_process_message (s : Settings) (msg : MIDIMessage) : List Act :=
  midi_thru_echo s msg ++ midi_route s msg

/-- Actions produced by processing a whole list of messages in order. -/
def route_all (s : Settings) : List MIDIMessage → List Act
  | [] => []
  | m :: rest => midi_process_message s m ++ route_all s rest

/-- Loop midi_process_messages: while the countdown is positive, receive
one message from the queue of pending parsed messages (receive returns
None exactly when the queue is empty, which breaks the loop), process
it and decrement. Returns the actions performed and the remaining
queue. -/
def midi_process_messages (s : Settings) (queue : List MIDIMessage) (limit : Nat) :
    List Act × List MIDIMessage :=
  match limit, queue with
  | 0, rest => ([], rest)
  | _ + 1, [] => ([], [])
  | l + 1, msg :: rest =>
      let out := midi_process_messages s rest l
      (midi_process_message s msg ++ out.1, out.2)

/-- Default value of the limit parameter of midi_process_messages. -/
def default_limit : Nat := 32

/-- Pending parsed messages of the two input transports. -/
structure MidiQueues where
  usb : List MIDIMessage
  uart : List MIDIMessage
deriving DecidableEq, Repr

/-- One pass of the body of midi_task: drain USB then UART, each with
the default limit. -/
def midi_task_pass (s : Settings) (q : MidiQueues) : List Act × MidiQueues :=
  let usb_out := midi_process_messages s q.usb default_limit
  let uart_out := midi_process_messages s q.uart default_limit
  (usb_out.1 ++ uart_out.1, ⟨usb_out.2, uart_out.2⟩)

/-- Menu item as seen by ttp_press through lcd_menu.selected: either a
synthmenu.Sequence holding the boolean step values of one track, a
non-Sequence Group represented by its current item, or any other item. -/
inductive MenuItem where
  | sequence_item (items : List Bool)
  | group_item (current : MenuItem)
  | other_item
deriving DecidableEq, Repr

/-- Selection logic of ttp_press: take lcd_menu.selected, descend one
level into a non-Sequence Group, and yield the step values when the
result is a Sequence. -/
def focused_sequence : MenuItem → Option (List Bool)
  | .sequence_item items => some items
  | .group_item (.sequence_item items) => some items
  | .group_item _ => none
  | .other_item => none

/-- Step toggle of ttp_press: negate the value of the step at
position % sequence.length (the menu layer keeps the item list exactly
sequence.length long). -/
def toggle_step (items : List Bool) (position : Nat) : List Bool :=
  let i := position % items.length
  items.set i (!(items.getD i false))

/-- Handler ttp_press bound to hardware.ttp.on_press: return unchanged
when settings.keyboard_touch is off or the focused selection is not a
Sequence; otherwise toggle the step at position % length. It performs
no voice press, no voice release and no MIDI send. -/
def ttp_press (s : Settings) (selected : MenuItem) (position : Nat) :
    MenuItem × List Act :=
  if !s.keyboard_touch then (selected, [])
  else
    match selected with
    | .sequence_item items =>
        (.sequence_item (toggle_step items position), [])
    | .group_item (.sequence_item items) =>
        (.group_item (.sequence_item (toggle_step items position)), [])
    | sel => (sel, [])

/-- Calls into the synthkeyboard sequencer pattern store. -/
inductive SeqCall where
  | set_note (position : Nat) (notenum : Int) (track : Int)
  | remove_note (position : Nat) (track : Int)
deriving DecidableEq, Repr

/-- Step position targeted by a pattern store call. -/
def SeqCall.position : SeqCall → Nat
  | .set_note p _ _ => p
  | .remove_note p _ => p

/-- Body of the loop of update_sequencer_track for one cell: a true cell
without an existing note yields set_note with notenum = track + 1; a
false cell always yields remove_note; a true cell with an existing note
yields nothing. -/
def update_track_cell (has_note : Nat → Int → Bool) (track : Int)
    (i : Nat) (state : Bool) : List SeqCall :=
  if state && !has_note i track then [SeqCall.set_note i (track + 1) track]
  else if !state then [SeqCall.remove_note i track]
  else []

/-- Loop of update_sequencer_track over enumerate(value), carrying the
running index. -/
def update_track_loop (has_note : Nat → Int → Bool) (track : Int)
    (i : Nat) : List Bool → List SeqCall
  | [] => []
  | state :: rest =>
      update_track_cell has_note track i state
        ++ update_track_loop has_note track (i + 1) rest

/-- Handler update_sequencer_track bound to the Sequence menu items:
return early when track > sequencer.tracks or track < 0, otherwise run
the per-cell loop from index 0. The pattern store state is abstracted
by the has_note predicate it queries. -/
def update_sequencer_track (tracks : Int) (has_note : Nat → Int → Bool)
    (track : Int) (value : List Bool) : List SeqCall :=
  if track > tracks ∨ track < 0 then []
  else update_track_loop has_note track 0 value

/-- Calls of a pattern store call list that target step position i. -/
def calls_at (calls : List SeqCall) (i : Nat) : List SeqCall :=
  calls.filter fun c => c.position == i

/-- Messages that pass the channel filter of midi_process_message:
either no channel is configured, or the message channel matches it. -/
def passes_filter (s : Settings) (msg : MIDIMessage) : Prop :=
  s.midi_channel = none ∨ msg.channel = s.midi_channel

/-! Helper lemmas shared by the claim theorems. -/

theorem resolve_voice_def (n : Int) : resolve_voice n = ((n - 1) % 8).toNat := rfl

theorem channel_filtered_false_of_passes (s : Settings) (msg : MIDIMessage)
    (h : passes_filter s msg) : channel_filtered s msg = false := by
  rcases h with h | h
  · simp [channel_filtered, h]
  · rcases hc : s.midi_channel with _ | c
    · simp [channel_filtered, hc]
    · rw [hc] at h
      simp [channel_filtered, hc, h]

theorem released_voices_append (a b : List Act) :
    released_voices (a ++ b) = released_voices a ++ released_voices b :=
  List.filterMap_append a b _

theorem pressed_voices_append (a b : List Act) :
    pressed_voices (a ++ b) = pressed_voices a ++ pressed_voices b :=
  List.filterMap_append a b _

theorem released_voices_echo (s : Settings) (msg : MIDIMessage) :
    released_voices (midi_thru_echo s msg) = [] := by
  unfold midi_thru_echo
  split <;> rfl

theorem pressed_voices_echo (s : Settings) (msg : MIDIMessage) :
    pressed_voices (midi_thru_echo s msg) = [] := by
  unfold midi_thru_echo
  split <;> rfl

theorem midi_drain_take_drop (s : Settings) (q : List MIDIMessage) (l : Nat) :
    midi_process_messages s q l = (route_all s (q.take l), q.drop l) := by
  induction l generalizing q with
  | zero => simp [midi_process_messages, route_all]
  | succ n ih =>
    cases q with
    | nil => simp [midi_process_messages, route_all]
    | cons m rest => simp [midi_process_messages, route_all, ih]

/-- C8: in each scheduling pass, each transport is drained of at most the
fixed limit of 32 messages (the loop also ends at an empty queue, since
receive yields nothing there), and the messages beyond the bound are
exactly the ones left queued for the next pass. -/
theorem midi_drain_bounded (s : Settings) (q : MidiQueues) :
    midi_task_pass s q
        = (route_all s (q.usb.take default_limit) ++ route_all s (q.uart.take default_limit),
           ⟨q.usb.drop default_limit, q.uart.drop default_limit⟩) ∧
    (q.usb.take default_limit).length ≤ 32 ∧
    (q.uart.take default_limit).length ≤ 32 ∧
    midi_process_messages s [] default_limit = ([], []) := by
  refine ⟨?_, ?_, ?_, ?_⟩
  · simp [midi_task_pass, midi_drain_take_drop]
  · exact le_trans (List.length_take_le _ _) (by simp [default_limit])
  · exact le_trans (List.length_take_le _ _) (by simp [default_limit])
  · simp [midi_drain_take_drop, route_all]

/-- C10: the NoteOn mirrored on a clock-playback press carries the
configured MIDI channel, while the NoteOff mirrored on a clock-playback
release is built from the note number alone, keeping the constructor
default channel None for every configuration. -/
theorem mirrored_channel_asymmetry (s : Settings) (n : Int) (v : ℚ) :
    (sent_messages (sequencer_press s n v)).map MIDIMessage.channel
        = [s.midi_channel, s.midi_channel] ∧
    (sent_messages (sequencer_release n)).map MIDIMessage.channel
        = [none, none] := by
  constructor
  · rfl
  · by_cases h3 : resolve_voice n = 3 <;>
      simp [sequencer_release, sent_messages, h3, MIDIMessage.channel]

/-- C9: on the failing input NoteOn(note=1, velocity=127) passing the
channel filter, midi_process_message presses voice 0 with the raw MIDI
velocity 127, which lies outside the 0.0 to 1.0 interval the voice
press interface requires. -/
theorem midi_press_velocity_overflow :
    pressed_voices (midi_process_message ⟨false, none, false⟩
        (MIDIMessage.NoteOn 1 127 none)) = [(0, (127 : ℚ))] ∧
    ¬ ((127 : ℚ) ≤ 1) := by
  constructor
  · decide
  · decide

/-- C1 counterexample: a NoteOff for note 4 arriving from MIDI-In passes
the (absent) channel filter and resolves to track 3, yet the only
release issued is for track 3: no release of track 4 precedes it, so
the choke coupling does not hold for the MIDI-In source. -/
theorem midi_release_track3_no_choke :
    released_voices (midi_process_message ⟨false, none, false⟩
        (MIDIMessage.NoteOff 4 0 none)) = [3] ∧
    Act.release 4 ∉ midi_process_message ⟨false, none, false⟩
        (MIDIMessage.NoteOff 4 0 none) := by
  constructor
  · decide
  · decide

theorem midi_route_noteon (s : Settings) (note vel : Int) (ch : Option Int)
    (hcf : channel_filtered s (MIDIMessage.NoteOn note vel ch) = false) :
    midi_route s (MIDIMessage.NoteOn note vel ch)
      = if 0 < vel then [Act.press (resolve_voice note) (vel : ℚ)]
        else [Act.release (resolve_voice note)] := by
  rw [midi_route, hcf]
  rfl

theorem midi_route_noteoff (s : Settings) (note vel : Int) (ch : Option Int)
    (hcf : channel_filtered s (MIDIMessage.NoteOff note vel ch) = false) :
    midi_route s (MIDIMessage.NoteOff note vel ch)
      = [Act.release (resolve_voice note)] := by
  rw [midi_route, hcf]
  rfl

/-- C1 amended: only a release dispatched through the clock-playback
handler couples tracks: there a release resolving to track 3 releases
track 4 strictly first and a release resolving to any other track
releases that track alone; a release arriving from MIDI-In, whether
through the NoteOff branch or the NoteOn velocity-zero branch, releases
exactly the resolved track with no coupling; and a touch press never
releases any voice. -/
theorem choke_only_in_clock_release (n : Int) (s : Settings)
    (note vel note2 : Int) (ch ch2 : Option Int) (sel : MenuItem) (p : Nat)
    (hoff : passes_filter s (MIDIMessage.NoteOff note vel ch))
    (hon : passes_filter s (MIDIMessage.NoteOn note2 0 ch2)) :
    released_voices (sequencer_release n)
        = (if resolve_voice n = 3 then [4, 3] else [resolve_voice n]) ∧
    released_voices (midi_process_message s (MIDIMessage.NoteOff note vel ch))
        = [resolve_voice note] ∧
    released_voices (midi_process_message s (MIDIMessage.NoteOn note2 0 ch2))
        = [resolve_voice note2] ∧
    released_voices (ttp_press s sel p).2 = [] := by
  refine ⟨?_, ?_, ?_, ?_⟩
  · by_cases h3 : resolve_voice n = 3 <;>
      simp [sequencer_release, released_voices, h3]
  · rw [midi_process_message, released_voices_append, released_voices_echo,
      midi_route_noteoff s note vel ch (channel_filtered_false_of_passes s _ hoff)]
    rfl
  · rw [midi_process_message, released_voices_append, released_voices_echo,
      midi_route_noteon s note2 0 ch2 (channel_filtered_false_of_passes s _ hon)]
    simp [released_voices]
  · unfold ttp_press
    split
    · rfl
    · cases sel with
      | sequence_item items => rfl
      | group_item cur => cases cur <;> rfl
      | other_item => rfl

/-- C1 amended witness: concrete instances — the clock release of note 4
chokes, a MIDI-In NoteOff and a MIDI-In NoteOn of velocity zero for
note 12 on the matching channel 9 each release only track 3, and a
touch press on a focused sequence releases nothing. -/
theorem choke_only_in_clock_release_witness :
    released_voices (sequencer_release 4) = [4, 3] ∧
    released_voices (midi_process_message ⟨true, some 9, false⟩
        (MIDIMessage.NoteOff 12 0 (some 9))) = [3] ∧
    released_voices (midi_process_message ⟨true, some 9, false⟩
        (MIDIMessage.NoteOn 12 0 (some 9))) = [3] ∧
    released_voices (ttp_press ⟨true, some 9, false⟩
        (MenuItem.sequence_item [false]) 0).2 = [] := by
  have h := choke_only_in_clock_release 4 ⟨true, some 9, false⟩ 12 0 12
    (some 9) (some 9) (MenuItem.sequence_item [false]) 0 (Or.inr rfl) (Or.inr rfl)
  refine ⟨?_, ?_, ?_, h.2.2.2⟩
  · rw [h.1]; decide
  · rw [h.2.1]; decide
  · rw [h.2.2.1]; decide

/-- C2: every numeric note identifier resolves to the voice at index
(n - 1) mod 8 in each handler: the clock press handler presses exactly
that voice, the clock release handler releases it (and only it when it
is not the choked index 3), and a MIDI NoteOn or NoteOff passing the
channel filter acts exactly on that voice: a NoteOn with positive
velocity presses it, a NoteOn without positive velocity releases it,
and a NoteOff releases it. -/
theorem note_to_track_resolution (s : Settings) (n : Int) (v : ℚ)
    (note vel : Int) (ch : Option Int)
    (hf : passes_filter s (MIDIMessage.NoteOn note vel ch))
    (hf2 : passes_filter s (MIDIMessage.NoteOff note vel ch)) :
    resolve_voice n = ((n - 1) % 8).toNat ∧
    pressed_voices (sequencer_press s n v) = [(resolve_voice n, v)] ∧
    resolve_voice n ∈ released_voices (sequencer_release n) ∧
    (resolve_voice n ≠ 3 →
        released_voices (sequencer_release n) = [resolve_voice n]) ∧
    (0 < vel →
        pressed_voices (midi_process_message s (MIDIMessage.NoteOn note vel ch))
          = [(resolve_voice note, (vel : ℚ))]) ∧
    (¬ 0 < vel →
        released_voices (midi_process_message s (MIDIMessage.NoteOn note vel ch))
          = [resolve_voice note]) ∧
    released_voices (midi_process_message s (MIDIMessage.NoteOff note vel ch))
        = [resolve_voice note] := by
  refine ⟨rfl, rfl, ?_, ?_, ?_, ?_, ?_⟩
  · by_cases h3 : resolve_voice n = 3 <;>
      simp [sequencer_release, released_voices, h3]
  · intro h3
    simp [sequencer_release, released_voices, h3]
  · intro hv
    rw [midi_process_message, pressed_voices_append, pressed_voices_echo,
      midi_route_noteon s note vel ch (channel_filtered_false_of_passes s _ hf)]
    simp [hv, pressed_voices]
  · intro hv
    rw [midi_process_message, released_voices_append, released_voices_echo,
      midi_route_noteon s note vel ch (channel_filtered_false_of_passes s _ hf)]
    simp [hv, released_voices]
  · rw [midi_process_message, released_voices_append, released_voices_echo,
      midi_route_noteoff s note vel ch (channel_filtered_false_of_passes s _ hf2)]
    rfl

/-- C2 witness: note 9 wraps around to track 0 for a clock press, a
clock release, a MIDI NoteOn of velocity 64 (press), a MIDI NoteOn of
velocity 0 (release) and a MIDI NoteOff, with no filter set. -/
theorem note_to_track_resolution_witness :
    resolve_voice 9 ∈ released_voices (sequencer_release 9) ∧
    released_voices (sequencer_release 9) = [resolve_voice 9] ∧
    pressed_voices (midi_process_message ⟨false, none, false⟩
        (MIDIMessage.NoteOn 9 64 none)) = [(resolve_voice 9, ((64 : Int) : ℚ))] ∧
    released_voices (midi_process_message ⟨false, none, false⟩
        (MIDIMessage.NoteOn 9 0 none)) = [resolve_voice 9] ∧
    released_voices (midi_process_message ⟨false, none, false⟩
        (MIDIMessage.NoteOff 9 0 none)) = [resolve_voice 9] := by
  have h64 := note_to_track_resolution ⟨false, none, false⟩ 9 (1/2) 9 64 none
    (Or.inl rfl) (Or.inl rfl)
  have h0 := note_to_track_resolution ⟨false, none, false⟩ 9 (1/2) 9 0 none
    (Or.inl rfl) (Or.inl rfl)
  exact ⟨h64.2.2.1, h64.2.2.2.1 (by decide), h64.2.2.2.2.1 (by decide),
    h0.2.2.2.2.2.1 (by decide), h0.2.2.2.2.2.2⟩

/-- C3: for a MIDI NoteOn that passes the channel filter, velocity zero
produces a release of the resolved voice and no press, while a positive
velocity produces a press of the resolved voice and no release. -/
theorem noteon_velocity_zero_release (s : Settings) (note vel : Int)
    (ch : Option Int) (hf : passes_filter s (MIDIMessage.NoteOn note vel ch)) :
    (vel = 0 →
      pressed_voices (midi_process_message s (MIDIMessage.NoteOn note vel ch)) = [] ∧
      released_voices (midi_process_message s (MIDIMessage.NoteOn note vel ch))
          = [resolve_voice note]) ∧
    (0 < vel →
      pressed_voices (midi_process_message s (MIDIMessage.NoteOn note vel ch))
          = [(resolve_voice note, (vel : ℚ))] ∧
      released_voices (midi_process_message s (MIDIMessage.NoteOn note vel ch)) = []) := by
  have hcf := channel_filtered_false_of_passes s _ hf
  constructor
  · intro h0
    constructor
    · rw [midi_process_message, pressed_voices_append, pressed_voices_echo,
        midi_route_noteon s note vel ch hcf]
      simp [h0, pressed_voices]
    · rw [midi_process_message, released_voices_append, released_voices_echo,
        midi_route_noteon s note vel ch hcf]
      simp [h0, released_voices]
  · intro hv
    constructor
    · rw [midi_process_message, pressed_voices_append, pressed_voices_echo,
        midi_route_noteon s note vel ch hcf]
      simp [hv, pressed_voices]
    · rw [midi_process_message, released_voices_append, released_voices_echo,
        midi_route_noteon s note vel ch hcf]
      simp [hv, released_voices]

/-- C3 witness: on channel 5 with the filter set to 5, NoteOn velocity 0
releases voice 1 and NoteOn velocity 100 presses it. -/
theorem noteon_velocity_zero_release_witness :
    released_voices (midi_process_message ⟨false, some 5, false⟩
        (MIDIMessage.NoteOn 2 0 (some 5))) = [resolve_voice 2] ∧
    pressed_voices (midi_process_message ⟨false, some 5, false⟩
        (MIDIMessage.NoteOn 2 0 (some 5))) = [] ∧
    pressed_voices (midi_process_message ⟨false, some 5, false⟩
        (MIDIMessage.NoteOn 2 100 (some 5))) = [(resolve_voice 2, ((100 : Int) : ℚ))] := by
  have h0 := noteon_velocity_zero_release ⟨false, some 5, false⟩ 2 0 (some 5)
    (Or.inr rfl)
  have h1 := noteon_velocity_zero_release ⟨false, some 5, false⟩ 2 100 (some 5)
    (Or.inr rfl)
  exact ⟨(h0.1 rfl).2, (h0.1 rfl).1, (h1.2 (by decide)).1⟩

theorem midi_route_no_sends (s : Settings) (msg : MIDIMessage) :
    ∀ a ∈ midi_route s msg, is_send a = false := by
  intro a ha
  unfold midi_route at ha
  split at ha
  · simp at ha
  · cases msg with
    | NoteOn note vel ch =>
      by_cases hv : 0 < vel <;> simp [hv] at ha <;> subst ha <;> rfl
    | NoteOff note vel ch =>
      simp at ha
      subst ha
      rfl
    | UnknownEvent st => simp at ha
    | OtherMessage st ch => simp at ha

theorem midi_echo_all_sends (s : Settings) (msg : MIDIMessage) :
    ∀ a ∈ midi_thru_echo s msg, is_send a = true := by
  intro a ha
  unfold midi_thru_echo at ha
  split at ha
  · simp at ha
    rcases ha with rfl | rfl <;> rfl
  · simp at ha

/-- C4: an incoming message is echoed verbatim to both output transports
exactly when the thru flag is set and the message is a recognized kind;
every send action precedes every voice action in the handler output;
and when a channel filter is configured and the message channel
differs, no voice press and no voice release is produced. -/
theorem midi_thru_and_filter (s : Settings) (msg : MIDIMessage) :
    ((Act.send_usb msg ∈ midi_process_message s msg ∧
      Act.send_uart msg ∈ midi_process_message s msg)
        ↔ (s.midi_thru = true ∧ msg.isUnknownEvent = false)) ∧
    (midi_process_message s msg
        = (midi_process_message s msg).filter is_send
            ++ (midi_process_message s msg).filter (fun a => !is_send a)) ∧
    (∀ c : Int, s.midi_channel = some c → msg.channel ≠ some c →
      pressed_voices (midi_process_message s msg) = [] ∧
      released_voices (midi_process_message s msg) = []) := by
  refine ⟨?_, ?_, ?_⟩
  · constructor
    · rintro ⟨h1, _⟩
      by_cases ht : s.midi_thru && !msg.isUnknownEvent
      · rw [Bool.and_eq_true, Bool.not_eq_true'] at ht
        exact ht
      · exfalso
        have hecho : midi_thru_echo s msg = [] := by
          unfold midi_thru_echo
          rw [if_neg ht]
        rw [midi_process_message, hecho, List.nil_append] at h1
        have := midi_route_no_sends s msg _ h1
        simp [is_send] at this
    · rintro ⟨ht, hu⟩
      have hecho : midi_thru_echo s msg = [Act.send_usb msg, Act.send_uart msg] := by
        unfold midi_thru_echo
        rw [if_pos (by rw [ht, hu]; rfl)]
      rw [midi_process_message, hecho]
      constructor <;> simp
  · rw [midi_process_message, List.filter_append, List.filter_append]
    rw [List.filter_eq_self.mpr (midi_echo_all_sends s msg),
      (List.filter_eq_nil_iff).mpr (fun a ha => by rw [midi_route_no_sends s msg a ha]; decide),
      (List.filter_eq_nil_iff).mpr (fun a ha => by rw [Bool.not_eq_true', Bool.not_eq_false]; exact midi_echo_all_sends s msg a ha),
      List.filter_eq_self.mpr (fun a ha => by rw [Bool.not_eq_true', midi_route_no_sends s msg a ha]),
      List.append_nil, List.nil_append]
  · intro c hc hne
    have hcf : channel_filtered s msg = true := by
      simp [channel_filtered, hc, hne]
    have hroute : midi_route s msg = [] := by
      simp [midi_route, hcf]
    rw [midi_process_message, hroute, List.append_nil]
    exact ⟨pressed_voices_echo s msg, released_voices_echo s msg⟩

/-- C4 witness: with thru set and the filter at channel 5, a NoteOn on
channel 3 is echoed to both outputs yet produces no press and no
release. -/
theorem midi_thru_and_filter_witness :
    (Act.send_usb (MIDIMessage.NoteOn 1 100 (some 3)) ∈
      midi_process_message ⟨true, some 5, false⟩ (MIDIMessage.NoteOn 1 100 (some 3))) ∧
    (Act.send_uart (MIDIMessage.NoteOn 1 100 (some 3)) ∈
      midi_process_message ⟨true, some 5, false⟩ (MIDIMessage.NoteOn 1 100 (some 3))) ∧
    pressed_voices (midi_process_message ⟨true, some 5, false⟩
      (MIDIMessage.NoteOn 1 100 (some 3))) = [] ∧
    released_voices (midi_process_message ⟨true, some 5, false⟩
      (MIDIMessage.NoteOn 1 100 (some 3))) = [] := by
  have h := midi_thru_and_filter ⟨true, some 5, false⟩ (MIDIMessage.NoteOn 1 100 (some 3))
  have hm := h.1.mpr ⟨rfl, rfl⟩
  have hf := h.2.2 5 rfl (by decide)
  exact ⟨hm.1, hm.2, hf.1, hf.2⟩

theorem pyInt_eq_floor (q : ℚ) (h : 0 ≤ q) : pyInt q = ⌊q⌋ := by
  unfold pyInt
  rw [Int.tdiv_eq_ediv (Rat.num_nonneg.mpr h) (by positivity)]
  exact (Rat.floor_def).symm

/-- C5 counterexample: the clock release of note 4 resolves to track 3
and force-releases track 4 as well, but exactly one NoteOff with note
number 4 is mirrored on each transport: no message with note number
5 = track 4 + 1 is sent, so the choke release of voice 4 is a voice
release from clock playback that is not mirrored. -/
theorem choke_release_not_mirrored :
    released_voices (sequencer_release 4) = [4, 3] ∧
    sent_uart (sequencer_release 4) = [MIDIMessage.NoteOff 4 0 none] ∧
    sent_usb (sequencer_release 4) = [MIDIMessage.NoteOff 4 0 none] := by
  refine ⟨?_, ?_, ?_⟩ <;> decide

/-- C5 amended: each clock-playback press event is mirrored as a NoteOn
with its note number, the configured channel and the velocity scaled by
int(velocity * 127) into 0..127, on both transports; each clock-playback
release event is mirrored as a NoteOff with its note number on both
transports (the extra choke release of track 4 has no mirror of its
own); for notes 1 to 8 the event note number equals the resolved track
index plus one; and MIDI-In processing sends nothing beyond the
verbatim thru echo. -/
theorem clock_mirroring (s : Settings) (n : Int) (v : ℚ) (msg : MIDIMessage)
    (hv0 : 0 ≤ v) (hv1 : v ≤ 1) (hn1 : 1 ≤ n) (hn8 : n ≤ 8) :
    sent_uart (sequencer_press s n v)
        = [MIDIMessage.NoteOn n (pyInt (v * 127)) s.midi_channel] ∧
    sent_usb (sequencer_press s n v)
        = [MIDIMessage.NoteOn n (pyInt (v * 127)) s.midi_channel] ∧
    ((resolve_voice n : Int) + 1 = n) ∧
    (0 ≤ pyInt (v * 127) ∧ pyInt (v * 127) ≤ 127) ∧
    sent_uart (sequencer_release n) = [MIDIMessage.NoteOff n 0 none] ∧
    sent_usb (sequencer_release n) = [MIDIMessage.NoteOff n 0 none] ∧
    (∀ a ∈ midi_process_message s msg, is_send a = true →
        a = Act.send_usb msg ∨ a = Act.send_uart msg) := by
  have hmul0 : (0 : ℚ) ≤ v * 127 := by positivity
  refine ⟨rfl, rfl, ?_, ⟨?_, ?_⟩, ?_, ?_, ?_⟩
  · have h0 : (0 : Int) ≤ n - 1 := by omega
    have hlt : n - 1 < 8 := by omega
    rw [resolve_voice_def, Int.emod_eq_of_lt h0 hlt, Int.toNat_of_nonneg h0]
    omega
  · rw [pyInt_eq_floor _ hmul0]
    exact Int.floor_nonneg.mpr hmul0
  · rw [pyInt_eq_floor _ hmul0]
    have hle : v * 127 ≤ 127 := by nlinarith
    have := Int.floor_le_floor hle
    simpa using this
  · by_cases h3 : resolve_voice n = 3 <;>
      simp [sequencer_release, sent_uart, h3]
  · by_cases h3 : resolve_voice n = 3 <;>
      simp [sequencer_release, sent_usb, h3]
  · intro a ha hs
    rw [midi_process_message, List.mem_append] at ha
    rcases ha with ha | ha
    · unfold midi_thru_echo at ha
      split at ha
      · simp at ha
        rcases ha with rfl | rfl
        · exact Or.inl rfl
        · exact Or.inr rfl
      · simp at ha
    · rw [midi_route_no_sends s msg a ha] at hs
      cases hs

/-- C5 witness: a full-velocity clock press of note 4 is mirrored on
UART as NoteOn(4, 127) with no channel configured, note 4 resolves to
track 3 = 4 - 1, and the scaled velocity lies in 0..127. -/
theorem clock_mirroring_witness :
    sent_uart (sequencer_press ⟨true, none, false⟩ 4 1)
        = [MIDIMessage.NoteOn 4 (pyInt ((1 : ℚ) * 127)) none] ∧
    ((resolve_voice 4 : Int) + 1 = 4) ∧
    0 ≤ pyInt ((1 : ℚ) * 127) ∧ pyInt ((1 : ℚ) * 127) ≤ 127 := by
  have h := clock_mirroring ⟨true, none, false⟩ 4 1 (MIDIMessage.NoteOn 1 5 none)
    (by norm_num) (by norm_num) (by norm_num) (by norm_num)
  exact ⟨h.1, h.2.2.1, h.2.2.2.1.1, h.2.2.2.1.2⟩

/-- C6 counterexample: with the touch keyboard disabled in settings, a
touch press leaves a pattern-edit focused selection unchanged, although
the focused sequence exists and the claim requires the step to toggle. -/
theorem touch_disabled_no_toggle :
    focused_sequence (MenuItem.sequence_item [false]) = some [false] ∧
    ttp_press ⟨false, none, false⟩ (MenuItem.sequence_item [false]) 0
        = (MenuItem.sequence_item [false], []) := by
  refine ⟨?_, ?_⟩ <;> decide

/-- C6 amended: a touch press never emits a MIDI message or a voice
press or release; when the touch keyboard is enabled and the selection
is pattern-edit focused, exactly the step at position mod length is
toggled; when the touch keyboard is disabled or the selection is not
pattern-edit focused, no pattern state changes. -/
theorem touch_toggle_step (s : Settings) (sel : MenuItem) (p : Nat) :
    ((ttp_press s sel p).2 = []) ∧
    (s.keyboard_touch = true → ∀ items, focused_sequence sel = some items →
        focused_sequence (ttp_press s sel p).1 = some (toggle_step items p)) ∧
    (focused_sequence sel = none → (ttp_press s sel p).1 = sel) ∧
    (s.keyboard_touch = false → (ttp_press s sel p).1 = sel) ∧
    (∀ (items : List Bool) (j : Nat), 0 < items.length →
        ((toggle_step items p).length = items.length ∧
         (j = p % items.length →
            (toggle_step items p).getD j false = !(items.getD j false)) ∧
         (j ≠ p % items.length →
            (toggle_step items p).getD j false = items.getD j false))) := by
  refine ⟨?_, ?_, ?_, ?_, ?_⟩
  · unfold ttp_press
    split
    · rfl
    · cases sel with
      | sequence_item items => rfl
      | group_item cur => cases cur <;> rfl
      | other_item => rfl
  · intro hk items hfoc
    cases sel with
    | sequence_item its =>
      rw [focused_sequence] at hfoc
      injection hfoc with hfoc
      subst hfoc
      simp [ttp_press, hk, focused_sequence]
    | group_item cur =>
      cases cur with
      | sequence_item its =>
        rw [focused_sequence] at hfoc
        injection hfoc with hfoc
        subst hfoc
        simp [ttp_press, hk, focused_sequence]
      | group_item inner => simp [focused_sequence] at hfoc
      | other_item => simp [focused_sequence] at hfoc
    | other_item => simp [focused_sequence] at hfoc
  · intro hfoc
    cases sel with
    | sequence_item its => simp [focused_sequence] at hfoc
    | group_item cur =>
      cases cur with
      | sequence_item its => simp [focused_sequence] at hfoc
      | group_item inner => by_cases hk : s.keyboard_touch <;> simp [ttp_press, hk]
      | other_item => by_cases hk : s.keyboard_touch <;> simp [ttp_press, hk]
    | other_item => by_cases hk : s.keyboard_touch <;> simp [ttp_press, hk]
  · intro hk
    simp [ttp_press, hk]
  · intro items j hlen
    have hi : p % items.length < items.length := Nat.mod_lt _ hlen
    refine ⟨?_, ?_, ?_⟩
    · simp [toggle_step]
    · intro hj
      subst hj
      simp [toggle_step, List.getD_eq_getElem?_getD, List.getElem?_set, hi]
    · intro hj
      simp [toggle_step, List.getD_eq_getElem?_getD, List.getElem?_set,
        (Ne.symm hj)]

/-- C6 amended witness: with touch enabled and a Sequence focused
through a Group, pressing position 4 on a length-3 sequence toggles
exactly step 1 and emits nothing. -/
theorem touch_toggle_step_witness :
    (ttp_press ⟨false, none, true⟩
        (MenuItem.group_item (MenuItem.sequence_item [false, true, true])) 4).2 = [] ∧
    focused_sequence (ttp_press ⟨false, none, true⟩
        (MenuItem.group_item (MenuItem.sequence_item [false, true, true])) 4).1
      = some [false, false, true] := by
  have h := touch_toggle_step ⟨false, none, true⟩
    (MenuItem.group_item (MenuItem.sequence_item [false, true, true])) 4
  refine ⟨h.1, ?_⟩
  rw [h.2.1 rfl [false, true, true] rfl]
  decide

theorem calls_at_append (a b : List SeqCall) (q : Nat) :
    calls_at (a ++ b) q = calls_at a q ++ calls_at b q := by
  unfold calls_at
  rw [List.filter_append]

theorem update_track_cell_position (hn : Nat → Int → Bool) (track : Int)
    (i : Nat) (b : Bool) :
    ∀ c ∈ update_track_cell hn track i b, SeqCall.position c = i := by
  intro c hc
  unfold update_track_cell at hc
  by_cases hb : b <;> by_cases hh : hn i track <;>
    simp [hb, hh] at hc <;> subst hc <;> rfl

theorem calls_at_cell (hn : Nat → Int → Bool) (track : Int) (i q : Nat)
    (b : Bool) :
    calls_at (update_track_cell hn track i b) q
      = if i = q then update_track_cell hn track i b else [] := by
  unfold calls_at update_track_cell
  by_cases hb : b <;> by_cases hh : hn i track <;> by_cases hiq : i = q <;>
    simp [hb, hh, hiq, SeqCall.position]

theorem update_track_loop_positions (hn : Nat → Int → Bool) (track : Int)
    (value : List Bool) :
    ∀ (start : Nat), ∀ c ∈ update_track_loop hn track start value,
      start ≤ SeqCall.position c := by
  induction value with
  | nil => intro start c hc; simp [update_track_loop] at hc
  | cons b rest ih =>
    intro start c hc
    rw [update_track_loop, List.mem_append] at hc
    rcases hc with hc | hc
    · rw [update_track_cell_position hn track start b c hc]
    · exact le_trans (Nat.le_succ start) (ih (start + 1) c hc)

theorem update_track_loop_calls_at (hn : Nat → Int → Bool) (track : Int)
    (value : List Bool) :
    ∀ (start i : Nat), i < value.length →
      calls_at (update_track_loop hn track start value) (start + i)
        = update_track_cell hn track (start + i) (value.getD i false) := by
  induction value with
  | nil => intro start i h; simp at h
  | cons b rest ih =>
    intro start i h
    rw [update_track_loop, calls_at_append]
    cases i with
    | zero =>
      rw [Nat.add_zero]
      have h2 : calls_at (update_track_loop hn track (start + 1) rest) start = [] := by
        unfold calls_at
        rw [List.filter_eq_nil_iff]
        intro c hc
        have hp := update_track_loop_positions hn track rest (start + 1) c hc
        simp only [beq_iff_eq]
        omega
      rw [h2, List.append_nil, calls_at_cell]
      simp
    | succ j =>
      have h3 : calls_at (update_track_cell hn track start b) (start + (j + 1)) = [] := by
        rw [calls_at_cell]
        have hne : start ≠ start + (j + 1) := by omega
        simp [hne]
      have harith : start + (j + 1) = (start + 1) + j := by omega
      rw [h3, List.nil_append, harith, ih (start + 1) j (by simpa using h)]
      simp

/-- C7 counterexample: with an empty pattern (has_note false everywhere)
and the new value for track 0 being a single false cell, the cell did
not change, yet the update issues a remove_note call for it, so a call
is issued for an unchanged cell. -/
theorem unchanged_false_cell_gets_call :
    (fun (_ : Nat) (_ : Int) => false) 0 (0 : Int) = false ∧
    update_sequencer_track 8 (fun _ _ => false) 0 [false]
        = [SeqCall.remove_note 0 0] := by
  refine ⟨rfl, ?_⟩
  decide

/-- C7 amended: for a track index within bounds, each cell of the new
value vector yields at most one pattern store call, at its own
position: a true cell with a note already present yields no call, a
true cell without one yields exactly set_note with notenum equal to
track + 1, and a false cell always yields exactly remove_note, whether
or not it changed (idempotent no-op downstream when the note is already
absent). -/
theorem update_track_cell_calls (tracks track : Int) (hn : Nat → Int → Bool)
    (value : List Bool) (h1 : track ≤ tracks) (h2 : 0 ≤ track)
    (i : Nat) (hi : i < value.length) :
    (calls_at (update_sequencer_track tracks hn track value) i).length ≤ 1 ∧
    (value.getD i false = true → hn i track = true →
        calls_at (update_sequencer_track tracks hn track value) i = []) ∧
    (value.getD i false = true → hn i track = false →
        calls_at (update_sequencer_track tracks hn track value) i
            = [SeqCall.set_note i (track + 1) track]) ∧
    (value.getD i false = false →
        calls_at (update_sequencer_track tracks hn track value) i
            = [SeqCall.remove_note i track]) := by
  have hguard : ¬(track > tracks ∨ track < 0) := by omega
  have hg : update_sequencer_track tracks hn track value
      = update_track_loop hn track 0 value := by
    unfold update_sequencer_track
    rw [if_neg hguard]
  have hc : calls_at (update_track_loop hn track 0 value) i
      = update_track_cell hn track i (value.getD i false) := by
    have := update_track_loop_calls_at hn track value 0 i hi
    simpa using this
  rw [hg, hc]
  cases hb : value.getD i false with
  | false =>
    refine ⟨?_, ?_, ?_, ?_⟩ <;> simp [update_track_cell]
  | true =>
    cases hh : hn i track with
    | false => refine ⟨?_, ?_, ?_, ?_⟩ <;> simp [update_track_cell, hh]
    | true => refine ⟨?_, ?_, ?_, ?_⟩ <;> simp [update_track_cell, hh]

/-- C7 amended witness: on an empty pattern, setting the single cell of
track 0 to true issues exactly set_note at position 0 with notenum 1. -/
theorem update_track_cell_calls_witness :
    calls_at (update_sequencer_track 8 (fun _ _ => false) 0 [true]) 0
        = [SeqCall.set_note 0 1 0] := by
  have h := update_track_cell_calls 8 0 (fun _ _ => false) [true]
    (by norm_num) (by norm_num) 0 (by decide)
  exact h.2.2.1 rfl rfl
